import Mathlib

/-!
Verification of the oxgate authentication/OAuth-broker core.

This file gives a shallow embedding, in Lean, of the parts of the oxgate
source that the checked claims are about:

* `src/error.rs` — the `AppError` taxonomy and its HTTP rendering,
* `src/services/auth.rs` — `AuthService::authenticate`,
* `src/services/hydra.rs` — the Hydra admin-API client's response handling,
* `src/services/password_reset.rs` — `PasswordResetService::reset_password`,
* `src/handlers/two_factor.rs` — the 2FA setup/verify/disable handlers,
* `src/handlers/oauth.rs` — `process_oauth_callback`,
* `src/handlers/consent.rs` — the consent handler,
* `src/services/totp.rs` — `TotpService::verify_code`,
* `src/services/oauth.rs` — `encrypt_state` / `decrypt_state` with a faithful
  base64url (no padding, strict) codec.

External library primitives (argon2 password verification, HMAC-based TOTP
code generation, AES-256-GCM) are not part of this repository; they are
modelled as explicit function parameters, or — for the AEAD — as an ideal
authenticated cipher, as documented at each definition.

Database repositories are modelled as in-memory association lists / lookup
functions; each handler is embedded as a pure function from the relevant
slice of store state (plus its inputs) to a result together with the new
store state.
-/

namespace Oxgate

/-- Error taxonomy from `src/error.rs` (`AppError`). The `database`, `hydra`
and `internal` variants carry wrapped error values in the source; those
payloads are never inspected by the code under verification, so they are
dropped here. -/
inductive AppErr where
  | authFail (msg : String)
  | validationErr (msg : String)
  | database
  | hydra
  | internal
  | emailAlreadyExists
  | tokenExpired
  | tokenNotFound
  | totpInvalid
  | totpAlreadyEnabled
  | totpNotEnabled
  | totpSetupRequired
  | oauthErr (msg : String)
  | oauthStateInvalid
  | oauthProviderError
  deriving DecidableEq, Repr

/-- HTTP rendering of an `AppError`, from `impl IntoResponse for AppError` in
`src/error.rs`: the pair of the numeric status code and the client-visible
message string. -/
def renderAppError : AppErr → Nat × String
  | .authFail _ => (401, "メールアドレスまたはパスワードが正しくありません")
  | .validationErr msg => (400, msg)
  | .database => (500, "内部エラーが発生しました")
  | .internal => (500, "内部エラーが発生しました")
  | .hydra => (502, "認証サーバーとの通信に失敗しました")
  | .emailAlreadyExists => (409, "このメールアドレスは既に使用されています")
  | .tokenExpired => (400, "無効または期限切れのリンクです")
  | .tokenNotFound => (400, "無効なリクエストです")
  | .totpInvalid => (401, "認証コードが正しくありません")
  | .totpAlreadyEnabled => (409, "二要素認証は既に有効です")
  | .totpNotEnabled => (400, "二要素認証が有効化されていません")
  | .totpSetupRequired => (403, "二要素認証の設定が必要です")
  | .oauthErr _ => (401, "認証に失敗しました")
  | .oauthStateInvalid => (400, "無効なリクエストです")
  | .oauthProviderError => (502, "外部認証サービスとの通信に失敗しました")

/-- A row of the `users` table (`src/models/user.rs`), restricted to the
fields the verified code reads. `password_hash = none` marks a social-only
account. Timestamps are never inspected and are omitted. -/
structure UserRec where
  id : Nat
  email : String
  password_hash : Option String
  deriving DecidableEq, Repr

/-- The fixed dummy argon2 hash constant from
`AuthService::authenticate` (`src/services/auth.rs` lines 47 and 65), used to
equalize the cost of the user-not-found and social-only failure paths. -/
def dummyHash : String := "$argon2id$v=19$m=19456,t=2,p=1$c29tZXNhbHQ$RWh6"

/-- Embedding of `AuthService::verify_password` (`src/services/auth.rs`).
The argon2 library is external; `parseOk h` stands for
`PasswordHash::new(h).is_ok()` and `verif pw h` for
`Argon2::verify_password(pw, h).is_ok()`. A hash that fails to parse yields
the opaque internal error, as in the source. -/
def verifyPassword (parseOk : String → Bool) (verif : String → String → Bool)
    (password hash : String) : Except AppErr Bool :=
  if parseOk hash then .ok (verif password hash) else .error .internal

/-- Embedding of `AuthService::authenticate` (`src/services/auth.rs` lines
37-71). `db` is `UserRepository::find_by_email`. Besides the result, the
function returns the list of `(password, hash)` pairs on which
`verify_password` was invoked, in order, so that claims about how often and
against which hash the verification primitive ran are statable. -/
def authenticate (db : String → Option UserRec) (parseOk : String → Bool)
    (verif : String → String → Bool) (email password : String) :
    Except AppErr UserRec × List (String × String) :=
  match db email with
  | some u =>
    match u.password_hash with
    | some h =>
      match verifyPassword parseOk verif password h with
      | .error e => (.error e, [(password, h)])
      | .ok true => (.ok u, [(password, h)])
      | .ok false => (.error (.authFail "invalid_credentials"), [(password, h)])
    | none =>
      (.error (.authFail "invalid_credentials"), [(password, dummyHash)])
  | none => (.error (.authFail "invalid_credentials"), [(password, dummyHash)])

/-- C1: for `authenticate`, the three failure cases — registered user with a
wrong password, social-only account (no password hash), and unknown email —
all return the identical opaque authentication failure
(`AppError::Authentication("invalid_credentials")`), and each failure path
invokes the password-hash verification primitive exactly once, against the
fixed dummy hash whenever the account has no real hash. -/
theorem authenticate_failure_uniform
    (db : String → Option UserRec) (parseOk : String → Bool)
    (verif : String → String → Bool)
    (e1 p1 : String) (u1 : UserRec) (h1 : String)
    (e2 p2 : String) (u2 : UserRec) (e3 p3 : String)
    (hu1 : db e1 = some u1) (hh1 : u1.password_hash = some h1)
    (hp1 : parseOk h1 = true) (hw1 : verif p1 h1 = false)
    (hu2 : db e2 = some u2) (hh2 : u2.password_hash = none)
    (hu3 : db e3 = none) :
    authenticate db parseOk verif e1 p1 =
      (.error (.authFail "invalid_credentials"), [(p1, h1)]) ∧
    authenticate db parseOk verif e2 p2 =
      (.error (.authFail "invalid_credentials"), [(p2, dummyHash)]) ∧
    authenticate db parseOk verif e3 p3 =
      (.error (.authFail "invalid_credentials"), [(p3, dummyHash)]) := by
  refine ⟨?_, ?_, ?_⟩ <;>
    simp [authenticate, verifyPassword, hu1, hh1, hp1, hw1, hu2, hh2, hu3]

/-- Witness for C1 at a concrete two-user store: `a@x` has a real hash and is
given the wrong password, `s@x` is social-only, and `n@x` is unknown. -/
theorem authenticate_failure_uniform_witness :
    authenticate
      (fun e =>
        if e = "a@x" then some ⟨1, "a@x", some "HASH"⟩
        else if e = "s@x" then some ⟨2, "s@x", none⟩ else none)
      (fun _ => true) (fun _ _ => false) "a@x" "wrongpw" =
      (.error (.authFail "invalid_credentials"), [("wrongpw", "HASH")]) ∧
    authenticate
      (fun e =>
        if e = "a@x" then some ⟨1, "a@x", some "HASH"⟩
        else if e = "s@x" then some ⟨2, "s@x", none⟩ else none)
      (fun _ => true) (fun _ _ => false) "s@x" "anypw" =
      (.error (.authFail "invalid_credentials"), [("anypw", dummyHash)]) ∧
    authenticate
      (fun e =>
        if e = "a@x" then some ⟨1, "a@x", some "HASH"⟩
        else if e = "s@x" then some ⟨2, "s@x", none⟩ else none)
      (fun _ => true) (fun _ _ => false) "n@x" "anypw" =
      (.error (.authFail "invalid_credentials"), [("anypw", dummyHash)]) :=
  authenticate_failure_uniform _ _ _ "a@x" "wrongpw" ⟨1, "a@x", some "HASH"⟩
    "HASH" "s@x" "anypw" ⟨2, "s@x", none⟩ "n@x" "anypw"
    (by decide) rfl rfl rfl (by decide) rfl (by decide)

/-- Outcome of one HTTP round trip against the Hydra admin API, as observed
by the methods of `HydraClient` (`src/services/hydra.rs`): either the request
itself failed at the transport level (`reqwest::Error`, converted by `?` via
`#[from]` into `AppError::Hydra`), or a response arrived with a status code
and a body that either parsed into the expected DTO (`some v`) or did not
(`none`). -/
inductive HttpOutcome (α : Type) where
  | transportError
  | response (status : Nat) (body : Option α)
  deriving DecidableEq, Repr

/-- Shared response handling of every `HydraClient` method
(`src/services/hydra.rs`): a transport error propagates as
`AppError::Hydra`; a non-success status (`!status().is_success()`, i.e.
outside 200-299) yields `AppError::Internal`; a body that fails to parse
yields `AppError::Internal`; otherwise the parsed value is returned. No
retry is performed anywhere. -/
def hydraCallResult {α : Type} (o : HttpOutcome α) : Except AppErr α :=
  match o with
  | .transportError => .error .hydra
  | .response status body =>
    if 200 ≤ status ∧ status ≤ 299 then
      match body with
      | some v => .ok v
      | none => .error .internal
    else .error .internal

/-- The login-request DTO returned by `GET .../requests/login`
(`HydraLoginRequest` in `src/services/hydra.rs`), scalar fields only. -/
structure HydraLoginReq where
  challenge : String
  skip : Bool
  subject : String
  requested_scope : List String
  deriving DecidableEq, Repr

/-- Embedding of `HydraClient::get_login_request` (`src/services/hydra.rs`
lines 137-161) as a function of the abstract HTTP outcome. -/
def getLoginRequest (o : HttpOutcome HydraLoginReq) : Except AppErr HydraLoginReq :=
  hydraCallResult o

/-- Embedding of `HydraClient::accept_login` (`src/services/hydra.rs` lines
166-202): the successful response body is `HydraRedirectResponse` and the
returned value is its `redirect_to` field. -/
def acceptLogin (o : HttpOutcome String) : Except AppErr String :=
  hydraCallResult o

/-- C9 counterexample: a Hydra call that receives a non-success HTTP status
(here 503) fails with `AppError::Internal`, which renders as a 500
internal-class response — not with the `AppError::Hydra` variant, whose 502
rendering is the only gateway-class failure. So the claim that every
non-success status surfaces as a gateway-class `BrokerUnavailable` failure
is false on the code. -/
theorem hydra_nonsuccess_not_gateway :
    getLoginRequest (.response 503 (some ⟨"c", false, "u", ["openid"]⟩)) =
      .error .internal ∧
    (renderAppError .internal).1 = 500 ∧
    (renderAppError .hydra).1 = 502 ∧
    (renderAppError .internal).1 ≠ 502 := by
  refine ⟨rfl, rfl, rfl, by decide⟩

/-- C9 (amended): a Hydra call that fails at the transport level surfaces
`AppError::Hydra`, rendered with the gateway-class status 502; a call that
receives a non-success HTTP status, or whose response body fails to parse,
surfaces the opaque `AppError::Internal`, rendered with status 500. In all
cases the error is returned to the caller with no retry. -/
theorem hydraCallResult_error_classes {α : Type}
    (s : Nat) (b : Option α) (s2 : Nat)
    (hs : ¬(200 ≤ s ∧ s ≤ 299)) (hs2 : 200 ≤ s2 ∧ s2 ≤ 299) :
    hydraCallResult (α := α) .transportError = .error .hydra ∧
    (renderAppError .hydra).1 = 502 ∧
    hydraCallResult (.response s b) = .error .internal ∧
    hydraCallResult (α := α) (.response s2 none) = .error .internal ∧
    (renderAppError .internal).1 = 500 := by
  refine ⟨rfl, rfl, ?_, ?_, rfl⟩
  · simp [hydraCallResult, hs]
  · simp [hydraCallResult, hs2]

/-- Witness for the amended C9 at concrete statuses 404 and 200. -/
theorem hydraCallResult_error_classes_witness :
    hydraCallResult (α := Nat) .transportError = .error .hydra ∧
    (renderAppError .hydra).1 = 502 ∧
    hydraCallResult (.response 404 (some 7)) = .error .internal ∧
    hydraCallResult (α := Nat) (.response 200 none) = .error .internal ∧
    (renderAppError .internal).1 = 500 :=
  hydraCallResult_error_classes 404 (some 7) 200 (by decide) (by decide)

/-- C8 counterexample: the rendered response for a password-reset token that
never existed (`AppError::TokenNotFound`) is not identical to the rendered
response for a token that exists but is used or expired
(`AppError::TokenExpired`): the messages differ, so the claim that status
and message are identical is false on the code. -/
theorem render_token_errors_differ :
    renderAppError .tokenNotFound ≠ renderAppError .tokenExpired := by
  decide

/-- C8 (amended): both invalid-token outcomes of `reset_password` render
with the same 400 status, but the messages differ — a token that never
existed yields the generic "無効なリクエストです" (invalid request), while a
used or expired token yields "無効または期限切れのリンクです" (invalid or
expired link) — so the response body can confirm whether a token existed. -/
theorem render_token_errors_status_same_message_differs :
    (renderAppError .tokenNotFound).1 = 400 ∧
    (renderAppError .tokenExpired).1 = 400 ∧
    (renderAppError .tokenNotFound).2 = "無効なリクエストです" ∧
    (renderAppError .tokenExpired).2 = "無効または期限切れのリンクです" ∧
    (renderAppError .tokenNotFound).2 ≠ (renderAppError .tokenExpired).2 := by
  refine ⟨rfl, rfl, rfl, rfl, by decide⟩

/-- A row of `password_reset_tokens` (`src/models/password_reset_token.rs`),
restricted to the fields `reset_password` reads. Times are integers. -/
structure ResetTokenRec where
  id : Nat
  user_id : Nat
  token_hash : String
  expires_at : Int
  used_at : Option Int
  deriving DecidableEq, Repr

/-- The slice of store state `reset_password` touches: the
`password_reset_tokens` table and, from `users`, the map from user id to
stored password hash. -/
structure ResetState where
  tokens : List ResetTokenRec
  users : List (Nat × Option String)
  deriving DecidableEq, Repr

/-- Embedding of `UserRepository::update_password`
(`src/repositories/user.rs`): set the stored hash of the given user. -/
def updatePassword (users : List (Nat × Option String)) (uid : Nat)
    (hash : String) : List (Nat × Option String) :=
  users.map (fun p => if p.1 == uid then (p.1, some hash) else p)

/-- Embedding of `PasswordResetService::reset_password`
(`src/services/password_reset.rs` lines 89-126). `hashT` is the SHA-256
token hash (`hash_token`) and `hashPw` the argon2 password hash
(`hash_password`); both are external primitives taken as parameters. The
function returns the result together with the new store state; every error
path leaves the state unchanged, exactly as in the source, where no write
happens before the token checks. -/
def resetPassword (hashT hashPw : String → String) (now : Int)
    (st : ResetState) (token newPassword : String) :
    Except AppErr Unit × ResetState :=
  match st.tokens.find? (fun t => t.token_hash == hashT token) with
  | none => (.error .tokenNotFound, st)
  | some rt =>
    if rt.used_at.isSome then (.error .tokenExpired, st)
    else if rt.expires_at < now then (.error .tokenExpired, st)
    else
      (.ok (),
        { tokens := st.tokens.map
            (fun t => if t.id == rt.id then { t with used_at := some now } else t),
          users := updatePassword st.users rt.user_id (hashPw newPassword) })

/-- Marking a token as used preserves its hash, so a later lookup by hash
still finds the same (now-marked) row first. -/
theorem find?_after_mark (g : ResetTokenRec → ResetTokenRec)
    (hg : ∀ t, (g t).token_hash = t.token_hash) (th : String) :
    ∀ (tokens : List ResetTokenRec) (rt : ResetTokenRec),
      tokens.find? (fun t => t.token_hash == th) = some rt →
      (tokens.map g).find? (fun t => t.token_hash == th) = some (g rt) := by
  intro tokens
  induction tokens with
  | nil => intro rt h; simp [List.find?] at h
  | cons hd tl ih =>
    intro rt h
    rw [List.map_cons, List.find?, hg hd]
    rw [List.find?] at h
    cases hm : hd.token_hash == th with
    | true =>
      rw [hm] at h
      have h' : some hd = some rt := h
      cases h'
      rfl
    | false =>
      rw [hm] at h
      exact ih rt h

/-- C5: `reset_password` succeeds at most once per token. After a successful
call, every subsequent call with the same token — at any later (or earlier)
clock value, so regardless of expiry — fails with the used/expired-token
error and returns the store unchanged, performing no password update; and in
general, whenever the token row found by hash already has `used_at` set, the
call fails the same way with the store unchanged. (`AppError::TokenExpired`
is the code's single used-or-expired variant, named `TokenExpiredOrUsed` in
the specification.) -/
theorem resetPassword_single_use
    (hashT hashPw : String → String) (now now2 now3 : Int)
    (st st' : ResetState) (token pw pw2 pw3 : String)
    (st2 : ResetState) (rt2 : ResetTokenRec)
    (hok : resetPassword hashT hashPw now st token pw = (.ok (), st'))
    (hfind2 : st2.tokens.find? (fun t => t.token_hash == hashT token) = some rt2)
    (hused2 : rt2.used_at.isSome) :
    resetPassword hashT hashPw now2 st' token pw2 = (.error .tokenExpired, st') ∧
    resetPassword hashT hashPw now3 st2 token pw3 = (.error .tokenExpired, st2) := by
  constructor
  · unfold resetPassword at hok
    split at hok
    · simp at hok
    · rename_i rt hfind
      split at hok
      · simp at hok
      split at hok
      · simp at hok
      have hst' : st' =
          { tokens := st.tokens.map
              (fun t => if t.id == rt.id then { t with used_at := some now } else t),
            users := updatePassword st.users rt.user_id (hashPw pw) } := by
        simpa using hok.symm
      have hfind' : st'.tokens.find? (fun t => t.token_hash == hashT token) =
          some { rt with used_at := some now } := by
        rw [hst']
        have := find?_after_mark
          (fun t => if t.id == rt.id then { t with used_at := some now } else t)
          (fun t => by by_cases h : (t.id == rt.id) = true <;> simp [h]) (hashT token)
          st.tokens rt hfind
        simpa using this
      unfold resetPassword
      rw [hfind']
      simp
  · unfold resetPassword
    rw [hfind2]
    simp [hused2]

/-- Witness for C5: a one-token, one-user store; the first reset succeeds and
marks the token, the second call (and any call on a store whose token row is
already marked) fails with the used/expired error and changes nothing. -/
theorem resetPassword_single_use_witness :
    resetPassword (fun _ => "TH") (fun _ => "NEWH") 5
      ⟨[⟨1, 7, "TH", 100, some 3⟩], [(7, some "NEWH")]⟩ "tok" "pw2" =
      (.error .tokenExpired, ⟨[⟨1, 7, "TH", 100, some 3⟩], [(7, some "NEWH")]⟩) ∧
    resetPassword (fun _ => "TH") (fun _ => "NEWH") 999
      ⟨[⟨1, 7, "TH", 100, some 5⟩], [(7, some "NEWH")]⟩ "tok" "pw3" =
      (.error .tokenExpired, ⟨[⟨1, 7, "TH", 100, some 5⟩], [(7, some "NEWH")]⟩) :=
  resetPassword_single_use (fun _ => "TH") (fun _ => "NEWH") 3 5 999
    ⟨[⟨1, 7, "TH", 100, none⟩], [(7, some "OLD")]⟩
    ⟨[⟨1, 7, "TH", 100, some 3⟩], [(7, some "NEWH")]⟩ "tok" "pw" "pw2" "pw3"
    ⟨[⟨1, 7, "TH", 100, some 5⟩], [(7, some "NEWH")]⟩ ⟨1, 7, "TH", 100, some 5⟩
    (by rfl) (by rfl) (by rfl)

/-- A row of `user_social_accounts` (`src/models/user_social_account.rs`),
restricted to the fields `process_oauth_callback` reads or writes. -/
structure SocialAccountRec where
  user_id : Nat
  provider : String
  provider_id : String
  email : Option String
  deriving DecidableEq, Repr

/-- The slice of store state `process_oauth_callback` touches, plus the id
the store would assign to the next created user row (user ids are
store-generated; the model makes the generator explicit). -/
structure CallbackState where
  socialAccounts : List SocialAccountRec
  users : List UserRec
  nextUserId : Nat
  deriving DecidableEq, Repr

/-- Result of `process_oauth_callback`: the subject string passed to
`HydraClient::accept_login` together with the new store state. The Hydra
accept call itself is external I/O; what the claim constrains is its
`subject` argument, which the model records. -/
structure CallbackOutcome where
  subject : String
  state : CallbackState
  deriving DecidableEq, Repr

/-- Embedding of `process_oauth_callback` (`src/handlers/oauth.rs` lines
223-300): look up the social link by `(provider, provider_id)`; if absent,
look up the user by email and link it, creating the user first (with no
password hash, via `create_social_user`) when the email is unknown; finally
pass `user_id.to_string()` as the subject to the provider login-accept. -/
def processOAuthCallback (st : CallbackState)
    (provider providerId email : String) : CallbackOutcome :=
  match st.socialAccounts.find?
      (fun a => a.provider == provider && a.provider_id == providerId) with
  | some socialAccount => { subject := toString socialAccount.user_id, state := st }
  | none =>
    match st.users.find? (fun u => u.email == email) with
    | some existingUser =>
      { subject := toString existingUser.id,
        state :=
          { st with
            socialAccounts :=
              st.socialAccounts ++ [⟨existingUser.id, provider, providerId, some email⟩] } }
    | none =>
      { subject := toString st.nextUserId,
        state :=
          { socialAccounts :=
              st.socialAccounts ++ [⟨st.nextUserId, provider, providerId, some email⟩],
            users := st.users ++ [⟨st.nextUserId, email, none⟩],
            nextUserId := st.nextUserId + 1 } }

/-- C6: account resolution order for a social callback. (1) If a social link
keyed by `(provider, externalId)` exists, its user id becomes the subject and
nothing is written — for every `email`, so even one that differs from the
stored link's email. (2) Otherwise, if a user with the callback email exists,
a link binding that user is created, the `users` table is unchanged (no new
user row), and that user's id becomes the subject. (3) Otherwise a new user
with no password hash is created, then the link, and the new id becomes the
subject. In all three cases the resolved user id is the subject passed to
provider login-accept. -/
theorem processOAuthCallback_resolution_order
    (st : CallbackState) (provider providerId : String)
    (sa : SocialAccountRec) (e1 : String)
    (st2 : CallbackState) (u : UserRec) (e2 : String)
    (st3 : CallbackState) (e3 : String)
    (h1 : st.socialAccounts.find?
      (fun a => a.provider == provider && a.provider_id == providerId) = some sa)
    (h2a : st2.socialAccounts.find?
      (fun a => a.provider == provider && a.provider_id == providerId) = none)
    (h2b : st2.users.find? (fun u => u.email == e2) = some u)
    (h3a : st3.socialAccounts.find?
      (fun a => a.provider == provider && a.provider_id == providerId) = none)
    (h3b : st3.users.find? (fun u => u.email == e3) = none) :
    processOAuthCallback st provider providerId e1 =
      { subject := toString sa.user_id, state := st } ∧
    processOAuthCallback st2 provider providerId e2 =
      { subject := toString u.id,
        state :=
          { st2 with
            socialAccounts :=
              st2.socialAccounts ++ [⟨u.id, provider, providerId, some e2⟩] } } ∧
    processOAuthCallback st3 provider providerId e3 =
      { subject := toString st3.nextUserId,
        state :=
          { socialAccounts :=
              st3.socialAccounts ++ [⟨st3.nextUserId, provider, providerId, some e3⟩],
            users := st3.users ++ [⟨st3.nextUserId, e3, none⟩],
            nextUserId := st3.nextUserId + 1 } } := by
  refine ⟨?_, ?_, ?_⟩ <;> unfold processOAuthCallback
  · rw [h1]
  · rw [h2a, h2b]
  · rw [h3a, h3b]

/-- Witness for C6: a store with one linked Google identity and one local
user. The linked identity resolves by link even under a changed email; an
unseen identity with a known email links to the existing user without a new
user row; an unseen identity with an unknown email creates the user. -/
theorem processOAuthCallback_resolution_order_witness :
    processOAuthCallback
      ⟨[⟨4, "google", "ext1", some "old@x"⟩], [⟨9, "bob@x", some "H"⟩], 10⟩
      "google" "ext1" "changed@x" =
      { subject := toString 4,
        state := ⟨[⟨4, "google", "ext1", some "old@x"⟩], [⟨9, "bob@x", some "H"⟩], 10⟩ } ∧
    processOAuthCallback ⟨[], [⟨9, "bob@x", some "H"⟩], 10⟩ "google" "ext1" "bob@x" =
      { subject := toString 9,
        state :=
          { socialAccounts := [] ++ [⟨9, "google", "ext1", some "bob@x"⟩],
            users := [⟨9, "bob@x", some "H"⟩], nextUserId := 10 } } ∧
    processOAuthCallback ⟨[], [⟨9, "bob@x", some "H"⟩], 10⟩ "google" "ext1" "new@x" =
      { subject := toString 10,
        state :=
          { socialAccounts := [] ++ [⟨10, "google", "ext1", some "new@x"⟩],
            users := [⟨9, "bob@x", some "H"⟩] ++ [⟨10, "new@x", none⟩],
            nextUserId := 10 + 1 } } :=
  processOAuthCallback_resolution_order
    ⟨[⟨4, "google", "ext1", some "old@x"⟩], [⟨9, "bob@x", some "H"⟩], 10⟩
    "google" "ext1" ⟨4, "google", "ext1", some "old@x"⟩ "changed@x"
    ⟨[], [⟨9, "bob@x", some "H"⟩], 10⟩ ⟨9, "bob@x", some "H"⟩ "bob@x"
    ⟨[], [⟨9, "bob@x", some "H"⟩], 10⟩ "new@x"
    (by rfl) (by rfl) (by rfl) (by rfl) (by rfl)

/-- The consent request body (`ConsentRequest` in `src/handlers/consent.rs`). -/
structure ConsentRequestIn where
  consent_challenge : String
  grant_scope : List String
  deriving DecidableEq, Repr

/-- The consent-challenge details fetched from Hydra (`HydraConsentRequest`
in `src/services/hydra.rs`), scalar fields only. -/
structure ConsentInfo where
  challenge : String
  skip : Bool
  subject : String
  client_id : String
  requested_scope : List String
  requested_access_token_audience : List String
  deriving DecidableEq, Repr

/-- The argument tuple the consent handler passes to
`HydraClient::accept_consent` (`src/handlers/consent.rs`). -/
structure AcceptConsentArgs where
  challenge : String
  grant_scope : List String
  grant_access_token_audience : List String
  remember : Bool
  remember_for : Int
  deriving DecidableEq, Repr

/-- Whitespace trim over the character list of a string, as
`str::trim().is_empty()` observes it: drop whitespace from both ends. -/
def trimChars (cs : List Char) : List Char :=
  ((cs.dropWhile Char.isWhitespace).reverse.dropWhile Char.isWhitespace).reverse

/-- Embedding of `validate_consent_request` (`src/handlers/consent.rs` lines
98-107): the challenge must be non-empty after trimming. -/
def validateConsentRequest (r : ConsentRequestIn) : Except AppErr Unit :=
  if trimChars r.consent_challenge.toList = [] then
    .error (.validationErr "consent_challenge は必須です")
  else .ok ()

/-- Embedding of `validate_grant_scope` (`src/handlers/consent.rs` lines
110-124): reject at the first granted scope not contained in the requested
scopes. -/
def validateGrantScope (grant requested : List String) : Except AppErr Unit :=
  match grant.find? (fun scope => !requested.contains scope) with
  | some scope =>
    .error (.validationErr
      ("スコープ \x27" ++ scope ++ "\x27 はリクエストされていません"))
  | none => .ok ()

/-- Embedding of the `consent` handler (`src/handlers/consent.rs` lines
34-95) as a function of the already-fetched challenge details; the value
returned is the argument tuple passed to `accept_consent`. On the
`skip = true` path the handler accepts with the challenge's own
`requested_scope` and `requested_access_token_audience`; otherwise it
validates the caller's `grant_scope` as a subset and accepts with it. -/
def consentHandler (info : ConsentInfo) (req : ConsentRequestIn) :
    Except AppErr AcceptConsentArgs :=
  match validateConsentRequest req with
  | .error e => .error e
  | .ok () =>
    if info.skip then
      .ok { challenge := req.consent_challenge,
            grant_scope := info.requested_scope,
            grant_access_token_audience := info.requested_access_token_audience,
            remember := true, remember_for := 3600 }
    else
      match validateGrantScope req.grant_scope info.requested_scope with
      | .error e => .error e
      | .ok () =>
        .ok { challenge := req.consent_challenge,
              grant_scope := req.grant_scope,
              grant_access_token_audience := info.requested_access_token_audience,
              remember := true, remember_for := 3600 }

/-- C10: when the consent challenge has `skip = true`, consent acceptance is
invoked with exactly the challenge's `requested_scope` and
`requested_access_token_audience`; the caller-supplied `grant_scope` is
ignored — the handler's result is the same for every `grant_scope`, so the
subset validation is never performed on this path. -/
theorem consentHandler_skip_uses_requested
    (info : ConsentInfo) (req : ConsentRequestIn)
    (hskip : info.skip = true)
    (hv : validateConsentRequest req = .ok ()) :
    consentHandler info req =
      .ok { challenge := req.consent_challenge,
            grant_scope := info.requested_scope,
            grant_access_token_audience := info.requested_access_token_audience,
            remember := true, remember_for := 3600 } ∧
    ∀ gs : List String,
      consentHandler info { req with grant_scope := gs } =
        consentHandler info req := by
  have hv' : ∀ gs : List String,
      validateConsentRequest { req with grant_scope := gs } = .ok () := by
    intro gs
    simpa [validateConsentRequest] using hv
  constructor
  · unfold consentHandler
    rw [hv, hskip]
    simp
  · intro gs
    unfold consentHandler
    rw [hv, hv' gs, hskip]
    simp

/-- Witness for C10: a skip-true challenge whose caller grants a scope that
was never requested; the handler still accepts with the requested scope and
audience, grant scope ignored. -/
theorem consentHandler_skip_uses_requested_witness :
    consentHandler
      ⟨"ch", true, "subj", "client", ["openid"], ["aud1"]⟩
      ⟨"ch", ["evil"]⟩ =
      .ok { challenge := "ch", grant_scope := ["openid"],
            grant_access_token_audience := ["aud1"],
            remember := true, remember_for := 3600 } ∧
    ∀ gs : List String,
      consentHandler ⟨"ch", true, "subj", "client", ["openid"], ["aud1"]⟩
          { consent_challenge := "ch", grant_scope := gs } =
        consentHandler ⟨"ch", true, "subj", "client", ["openid"], ["aud1"]⟩
          ⟨"ch", ["evil"]⟩ :=
  consentHandler_skip_uses_requested
    ⟨"ch", true, "subj", "client", ["openid"], ["aud1"]⟩ ⟨"ch", ["evil"]⟩
    rfl (by rfl)

/-- A row of `user_2fa_secrets` (`src/models/user_2fa.rs`), restricted to the
fields the handlers read: the encrypted secret and the enabled flag.
`none` at the call sites below means no row exists for the user. -/
structure TwoFaRow where
  secret_encrypted : List Nat
  enabled : Bool
  deriving DecidableEq, Repr

/-- Embedding of `validate_password` (`src/handlers/two_factor.rs` lines
189-199): non-empty and at least 8 bytes. -/
def validatePassword (password : String) : Except AppErr Unit :=
  if password.utf8ByteSize == 0 then
    .error (.validationErr "パスワードは必須です")
  else if password.utf8ByteSize < 8 then
    .error (.validationErr "パスワードは8文字以上で入力してください")
  else .ok ()

/-- Embedding of `validate_totp_code` (`src/handlers/two_factor.rs` lines
202-212): non-empty, exactly 6 bytes, all ASCII digits. -/
def validateTotpCode (code : String) : Except AppErr Unit :=
  if code.utf8ByteSize == 0 then
    .error (.validationErr "認証コードは必須です")
  else if code.utf8ByteSize != 6 || !(code.toList.all Char.isDigit) then
    .error (.validationErr "認証コードは6桁の数字で入力してください")
  else .ok ()

/-- Embedding of `verify_user_password` (`src/handlers/two_factor.rs` lines
215-230): fetch the user by id, then run `AuthService::authenticate` against
the user's email. `findById` is the `find_by_id` result. -/
def verifyUserPassword (findById : Option UserRec) (db : String → Option UserRec)
    (parseOk : String → Bool) (verif : String → String → Bool)
    (password : String) : Except AppErr UserRec :=
  match findById with
  | none => .error (.authFail "user not found")
  | some u => (authenticate db parseOk verif u.email password).1

/-- The tail of `setup_2fa` after the existing-row check: generate a secret
(`newSecret`, modelling `TotpService::generate_secret`), encrypt and store it
with `enabled = false`, then build the QR code. The row is created before
the QR step, so a QR failure still leaves the fresh pending row, as in the
source. `encS` models `encrypt_secret`, `qrOf` models `generate_qr_code`. -/
def setup2faCreate (user : UserRec) (newSecret : String)
    (encS : String → List Nat) (qrOf : String → String → Except AppErr String) :
    Except AppErr (String × String) × Option TwoFaRow :=
  match qrOf user.email newSecret with
  | .error e => (.error e, some ⟨encS newSecret, false⟩)
  | .ok qr =>
    (.ok (newSecret, "data:image/png;base64," ++ qr), some ⟨encS newSecret, false⟩)

/-- Embedding of `setup_2fa` (`src/handlers/two_factor.rs` lines 32-68) for
one user: validate the password, re-authenticate, then — if a row exists and
is enabled — reject with the conflict error; if a pending row exists, delete
it and create a fresh one; if no row exists, create one. The second
component of the result is the user's 2FA row after the call. -/
def setup2fa (findById : Option UserRec) (db : String → Option UserRec)
    (parseOk : String → Bool) (verif : String → String → Bool)
    (row : Option TwoFaRow) (newSecret : String)
    (encS : String → List Nat) (qrOf : String → String → Except AppErr String)
    (password : String) :
    Except AppErr (String × String) × Option TwoFaRow :=
  match validatePassword password with
  | .error e => (.error e, row)
  | .ok () =>
    match verifyUserPassword findById db parseOk verif password with
    | .error e => (.error e, row)
    | .ok user =>
      match row with
      | some existing =>
        if existing.enabled then (.error .totpAlreadyEnabled, row)
        else setup2faCreate user newSecret encS qrOf
      | none => setup2faCreate user newSecret encS qrOf

/-- Embedding of `verify_2fa` (`src/handlers/two_factor.rs` lines 89-123) for
one user: validate the code format, reject when no row exists
(`TotpNotEnabled`) or the row is already enabled (`TotpAlreadyEnabled`),
decrypt the secret (`decS` models `decrypt_secret`), verify the code (`verC`
models `TotpService::verify_code`), and on the first success set
`enabled = true`. -/
def verify2fa (row : Option TwoFaRow) (decS : List Nat → Except AppErr String)
    (verC : String → String → Except AppErr Bool) (code : String) :
    Except AppErr Bool × Option TwoFaRow :=
  match validateTotpCode code with
  | .error e => (.error e, row)
  | .ok () =>
    match row with
    | none => (.error .totpNotEnabled, row)
    | some r =>
      if r.enabled then (.error .totpAlreadyEnabled, row)
      else
        match decS r.secret_encrypted with
        | .error e => (.error e, row)
        | .ok secret =>
          match verC secret code with
          | .error e => (.error e, row)
          | .ok false => (.error .totpInvalid, row)
          | .ok true => (.ok true, some { r with enabled := true })

/-- Embedding of `disable_2fa` (`src/handlers/two_factor.rs` lines 146-184)
for one user: validate password and code, re-authenticate, reject when no
row exists or the row is not enabled (`TotpNotEnabled` both ways), verify
the code, and on success delete the row. -/
def disable2fa (findById : Option UserRec) (db : String → Option UserRec)
    (parseOk : String → Bool) (verif : String → String → Bool)
    (row : Option TwoFaRow) (decS : List Nat → Except AppErr String)
    (verC : String → String → Except AppErr Bool)
    (password code : String) :
    Except AppErr Bool × Option TwoFaRow :=
  match validatePassword password with
  | .error e => (.error e, row)
  | .ok () =>
    match validateTotpCode code with
    | .error e => (.error e, row)
    | .ok () =>
      match verifyUserPassword findById db parseOk verif password with
      | .error e => (.error e, row)
      | .ok _user =>
        match row with
        | none => (.error .totpNotEnabled, row)
        | some r =>
          if !r.enabled then (.error .totpNotEnabled, row)
          else
            match decS r.secret_encrypted with
            | .error e => (.error e, row)
            | .ok secret =>
              match verC secret code with
              | .error e => (.error e, row)
              | .ok false => (.error .totpInvalid, row)
              | .ok true => (.ok true, none)

/-- C4: the per-user 2FA enrollment state machine over the row states
Absent (`none`), Pending (`some` row with `enabled = false`) and Enabled
(`some` row with `enabled = true`). Under a valid password, a passing
re-authentication, a well-formed code that verifies, and a successful QR
generation: setup while Enabled is rejected as the `TotpAlreadyEnabled`
conflict; setup while Pending discards the old row and creates a fresh
pending one with the new secret; setup while Absent creates a pending row;
verify while Absent is rejected with `TotpNotEnabled` and while Enabled with
the `TotpAlreadyEnabled` conflict; the first successful verification sets
`enabled = true`; disable while Absent or while Pending is rejected with
`TotpNotEnabled`, and disable while Enabled deletes the row. -/
theorem twoFactor_state_machine
    (findById : Option UserRec) (db : String → Option UserRec)
    (parseOk : String → Bool) (verif : String → String → Bool)
    (user : UserRec) (password code newSecret qr secret : String)
    (encS : String → List Nat) (qrOf : String → String → Except AppErr String)
    (decS : List Nat → Except AppErr String)
    (verC : String → String → Except AppErr Bool)
    (ct ct0 : List Nat)
    (hpw : validatePassword password = .ok ())
    (hauth : verifyUserPassword findById db parseOk verif password = .ok user)
    (hcode : validateTotpCode code = .ok ())
    (hqr : qrOf user.email newSecret = .ok qr)
    (hdec : decS ct = .ok secret)
    (hver : verC secret code = .ok true) :
    setup2fa findById db parseOk verif (some ⟨ct0, true⟩) newSecret encS qrOf password =
      (.error .totpAlreadyEnabled, some ⟨ct0, true⟩) ∧
    setup2fa findById db parseOk verif (some ⟨ct0, false⟩) newSecret encS qrOf password =
      (.ok (newSecret, "data:image/png;base64," ++ qr), some ⟨encS newSecret, false⟩) ∧
    setup2fa findById db parseOk verif none newSecret encS qrOf password =
      (.ok (newSecret, "data:image/png;base64," ++ qr), some ⟨encS newSecret, false⟩) ∧
    verify2fa none decS verC code = (.error .totpNotEnabled, none) ∧
    verify2fa (some ⟨ct, true⟩) decS verC code =
      (.error .totpAlreadyEnabled, some ⟨ct, true⟩) ∧
    verify2fa (some ⟨ct, false⟩) decS verC code = (.ok true, some ⟨ct, true⟩) ∧
    disable2fa findById db parseOk verif none decS verC password code =
      (.error .totpNotEnabled, none) ∧
    disable2fa findById db parseOk verif (some ⟨ct, false⟩) decS verC password code =
      (.error .totpNotEnabled, some ⟨ct, false⟩) ∧
    disable2fa findById db parseOk verif (some ⟨ct, true⟩) decS verC password code =
      (.ok true, none) := by
  refine ⟨?_, ?_, ?_, ?_, ?_, ?_, ?_, ?_, ?_⟩ <;>
    simp [setup2fa, verify2fa, disable2fa, setup2faCreate,
      hpw, hauth, hcode, hqr, hdec, hver]

/-- Witness for C4 at a concrete user, password, code and crypto stubs. -/
theorem twoFactor_state_machine_witness :
    setup2fa (some ⟨1, "a@x", some "HASH"⟩)
      (fun e => if e = "a@x" then some ⟨1, "a@x", some "HASH"⟩ else none)
      (fun _ => true) (fun _ _ => true) (some ⟨[8], true⟩) "NEWSECRET"
      (fun _ => [1]) (fun _ _ => .ok "QR") "password123" =
      (.error .totpAlreadyEnabled, some ⟨[8], true⟩) ∧
    setup2fa (some ⟨1, "a@x", some "HASH"⟩)
      (fun e => if e = "a@x" then some ⟨1, "a@x", some "HASH"⟩ else none)
      (fun _ => true) (fun _ _ => true) (some ⟨[8], false⟩) "NEWSECRET"
      (fun _ => [1]) (fun _ _ => .ok "QR") "password123" =
      (.ok ("NEWSECRET", "data:image/png;base64," ++ "QR"), some ⟨[1], false⟩) ∧
    setup2fa (some ⟨1, "a@x", some "HASH"⟩)
      (fun e => if e = "a@x" then some ⟨1, "a@x", some "HASH"⟩ else none)
      (fun _ => true) (fun _ _ => true) none "NEWSECRET"
      (fun _ => [1]) (fun _ _ => .ok "QR") "password123" =
      (.ok ("NEWSECRET", "data:image/png;base64," ++ "QR"), some ⟨[1], false⟩) ∧
    verify2fa none (fun _ => .ok "SEC")
      (fun s c => .ok (s == "SEC" && c == "123456")) "123456" =
      (.error .totpNotEnabled, none) ∧
    verify2fa (some ⟨[9], true⟩) (fun _ => .ok "SEC")
      (fun s c => .ok (s == "SEC" && c == "123456")) "123456" =
      (.error .totpAlreadyEnabled, some ⟨[9], true⟩) ∧
    verify2fa (some ⟨[9], false⟩) (fun _ => .ok "SEC")
      (fun s c => .ok (s == "SEC" && c == "123456")) "123456" =
      (.ok true, some ⟨[9], true⟩) ∧
    disable2fa (some ⟨1, "a@x", some "HASH"⟩)
      (fun e => if e = "a@x" then some ⟨1, "a@x", some "HASH"⟩ else none)
      (fun _ => true) (fun _ _ => true) none (fun _ => .ok "SEC")
      (fun s c => .ok (s == "SEC" && c == "123456")) "password123" "123456" =
      (.error .totpNotEnabled, none) ∧
    disable2fa (some ⟨1, "a@x", some "HASH"⟩)
      (fun e => if e = "a@x" then some ⟨1, "a@x", some "HASH"⟩ else none)
      (fun _ => true) (fun _ _ => true) (some ⟨[9], false⟩) (fun _ => .ok "SEC")
      (fun s c => .ok (s == "SEC" && c == "123456")) "password123" "123456" =
      (.error .totpNotEnabled, some ⟨[9], false⟩) ∧
    disable2fa (some ⟨1, "a@x", some "HASH"⟩)
      (fun e => if e = "a@x" then some ⟨1, "a@x", some "HASH"⟩ else none)
      (fun _ => true) (fun _ _ => true) (some ⟨[9], true⟩) (fun _ => .ok "SEC")
      (fun s c => .ok (s == "SEC" && c == "123456")) "password123" "123456" =
      (.ok true, none) :=
  twoFactor_state_machine (some ⟨1, "a@x", some "HASH"⟩)
    (fun e => if e = "a@x" then some ⟨1, "a@x", some "HASH"⟩ else none)
    (fun _ => true) (fun _ _ => true) ⟨1, "a@x", some "HASH"⟩
    "password123" "123456" "NEWSECRET" "QR" "SEC"
    (fun _ => [1]) (fun _ _ => .ok "QR") (fun _ => .ok "SEC")
    (fun s c => .ok (s == "SEC" && c == "123456")) [9] [8]
    (by rfl) (by rfl) (by rfl) (by rfl) (by rfl) (by rfl)

/-- Modulus of Rust `u64` arithmetic, used where `totp_rs` computes with
wrapping-capable release-mode subtraction and multiplication. -/
def u64Mod : Nat := 2 ^ 64

/-- The step time probed by iteration `i` of `totp_rs::TOTP::check` with
`step = 30` and `skew = 1` (the parameters fixed by
`TotpService::create_totp_for_verify`, `src/services/totp.rs` lines
183-202): `basestep = time / 30 - 1` (u64 wrapping) and
`step_time = (basestep + i) * 30` (u64 wrapping), for `i` in 0, 1, 2. -/
def totpStepTime (time i : Nat) : Nat :=
  ((time / 30 + (u64Mod - 1)) % u64Mod + i) % u64Mod * 30 % u64Mod

/-- The TOTP code for the 30-second step containing `t`. `totp_rs` derives
the HOTP counter as `t / 30` and then HMACs it; the HMAC-SHA1 digest-to-six
-digits pipeline is an external primitive, abstracted as `genStep` from the
counter to the code characters (for the fixed, already-decoded secret). -/
def totpGenerate (genStep : Nat → List Char) (t : Nat) : List Char :=
  genStep (t / 30)

/-- Embedding of `totp_rs::TOTP::check` as called by
`TotpService::verify_code`: compare the supplied code against the generated
code at the three probed step times. -/
def totpCheck (genStep : Nat → List Char) (code : List Char) (time : Nat) : Bool :=
  [0, 1, 2].any (fun i => totpGenerate genStep (totpStepTime time i) == code)

/-- Embedding of `TotpService::verify_code` (`src/services/totp.rs` lines
139-158): a code that is not exactly 6 ASCII digits yields `Ok(false)`
without error; otherwise the result is the window check at the current
time. The code is given as its character list; for a code of 6 ASCII digits
the Rust byte length and the character count coincide, and in every other
case both embeddings return `false`. -/
def verifyCode (genStep : Nat → List Char) (time : Nat) (code : List Char) :
    Except AppErr Bool :=
  if code.length != 6 || !(code.all Char.isDigit) then .ok false
  else .ok (totpCheck genStep code time)

/-- C3: `verify_code` returns `Ok(false)` — not an error — for every code
that is not exactly 6 ASCII digits; and, provided the generated codes of the
five surrounding steps are pairwise distinct (the generic position for an
HMAC-based code), it accepts exactly the codes of the current step and the
two adjacent steps: a code computed at `T-30` or `T+30` is accepted and a
code computed at `T-60` or `T+60` is rejected. -/
theorem verifyCode_window (genStep : Nat → List Char) (time : Nat)
    (hfmt : ∀ s, (genStep s).length = 6 ∧ (genStep s).all Char.isDigit = true)
    (hlo : 60 ≤ time) (hhi : time ≤ 2 ^ 59)
    (hd1 : genStep (time / 30 - 2) ≠ genStep (time / 30 - 1))
    (hd2 : genStep (time / 30 - 2) ≠ genStep (time / 30))
    (hd3 : genStep (time / 30 - 2) ≠ genStep (time / 30 + 1))
    (hd4 : genStep (time / 30 + 2) ≠ genStep (time / 30 - 1))
    (hd5 : genStep (time / 30 + 2) ≠ genStep (time / 30))
    (hd6 : genStep (time / 30 + 2) ≠ genStep (time / 30 + 1)) :
    (∀ code : List Char, (code.length != 6 || !(code.all Char.isDigit)) = true →
      verifyCode genStep time code = .ok false) ∧
    verifyCode genStep time (totpGenerate genStep (time - 30)) = .ok true ∧
    verifyCode genStep time (totpGenerate genStep time) = .ok true ∧
    verifyCode genStep time (totpGenerate genStep (time + 30)) = .ok true ∧
    verifyCode genStep time (totpGenerate genStep (time - 60)) = .ok false ∧
    verifyCode genStep time (totpGenerate genStep (time + 60)) = .ok false := by
  have hstep : ∀ i, i ≤ 2 →
      totpStepTime time i = (time / 30 - 1 + i) * 30 := by
    intro i hi
    unfold totpStepTime u64Mod
    omega
  have hgen : ∀ i, i ≤ 2 →
      totpGenerate genStep (totpStepTime time i) = genStep (time / 30 - 1 + i) := by
    intro i hi
    rw [hstep i hi]
    unfold totpGenerate
    congr 1
    omega
  have hfmt6 : ∀ s, ((genStep s).length != 6 || !((genStep s).all Char.isDigit)) = false := by
    intro s
    rcases hfmt s with ⟨hl, hd⟩
    simp [hl, hd]
  have hcheck : ∀ s, totpCheck genStep (genStep s) time =
      (genStep (time / 30 - 1) == genStep s ||
        (genStep (time / 30) == genStep s || genStep (time / 30 + 1) == genStep s)) := by
    intro s
    unfold totpCheck
    rw [List.any_cons, List.any_cons, List.any_cons, List.any_nil,
      hgen 0 (by omega), hgen 1 (by omega), hgen 2 (by omega)]
    have e0 : time / 30 - 1 + 0 = time / 30 - 1 := by omega
    have e1 : time / 30 - 1 + 1 = time / 30 := by omega
    have e2 : time / 30 - 1 + 2 = time / 30 + 1 := by omega
    rw [e0, e1, e2]
    simp
  refine ⟨?_, ?_, ?_, ?_, ?_, ?_⟩
  · intro code hbad
    simp [verifyCode, hbad]
  · have ht : (time - 30) / 30 = time / 30 - 1 := by omega
    simp only [verifyCode, totpGenerate, ht, hfmt6, Bool.false_eq_true, if_false]
    rw [hcheck]
    simp
  · simp only [verifyCode, totpGenerate, hfmt6, Bool.false_eq_true, if_false]
    rw [hcheck]
    simp
  · have ht : (time + 30) / 30 = time / 30 + 1 := by omega
    simp only [verifyCode, totpGenerate, ht, hfmt6, Bool.false_eq_true, if_false]
    rw [hcheck]
    simp
  · have ht : (time - 60) / 30 = time / 30 - 2 := by omega
    simp only [verifyCode, totpGenerate, ht, hfmt6, Bool.false_eq_true, if_false]
    rw [hcheck]
    simp [Ne.symm hd1, Ne.symm hd2, Ne.symm hd3]
  · have ht : (time + 60) / 30 = time / 30 + 2 := by omega
    simp only [verifyCode, totpGenerate, ht, hfmt6, Bool.false_eq_true, if_false]
    rw [hcheck]
    simp [Ne.symm hd4, Ne.symm hd5, Ne.symm hd6]

/-- Witness for C3 with a concrete abstract generator (first character keyed
by the step counter modulo 10, padded with zeros) at time 300. -/
theorem verifyCode_window_witness :
    (∀ code : List Char, (code.length != 6 || !(code.all Char.isDigit)) = true →
      verifyCode (fun s => [Nat.digitChar (s % 10), '0', '0', '0', '0', '0'])
        300 code = .ok false) ∧
    verifyCode (fun s => [Nat.digitChar (s % 10), '0', '0', '0', '0', '0']) 300
      (totpGenerate (fun s => [Nat.digitChar (s % 10), '0', '0', '0', '0', '0'])
        (300 - 30)) = .ok true ∧
    verifyCode (fun s => [Nat.digitChar (s % 10), '0', '0', '0', '0', '0']) 300
      (totpGenerate (fun s => [Nat.digitChar (s % 10), '0', '0', '0', '0', '0'])
        300) = .ok true ∧
    verifyCode (fun s => [Nat.digitChar (s % 10), '0', '0', '0', '0', '0']) 300
      (totpGenerate (fun s => [Nat.digitChar (s % 10), '0', '0', '0', '0', '0'])
        (300 + 30)) = .ok true ∧
    verifyCode (fun s => [Nat.digitChar (s % 10), '0', '0', '0', '0', '0']) 300
      (totpGenerate (fun s => [Nat.digitChar (s % 10), '0', '0', '0', '0', '0'])
        (300 - 60)) = .ok false ∧
    verifyCode (fun s => [Nat.digitChar (s % 10), '0', '0', '0', '0', '0']) 300
      (totpGenerate (fun s => [Nat.digitChar (s % 10), '0', '0', '0', '0', '0'])
        (300 + 60)) = .ok false :=
  verifyCode_window (fun s => [Nat.digitChar (s % 10), '0', '0', '0', '0', '0']) 300
    (fun s => by
      refine ⟨rfl, ?_⟩
      have h10 : s % 10 < 10 := Nat.mod_lt _ (by omega)
      have : ∀ m, m < 10 → (Nat.digitChar m).isDigit = true := by decide
      simp [List.all, this _ h10])
    (by omega) (by omega)
    (by decide) (by decide) (by decide) (by decide) (by decide) (by decide)

/-- The base64url alphabet map of the `base64` crate's `URL_SAFE_NO_PAD`
engine: 6-bit value to ASCII byte (`A-Z`, `a-z`, `0-9`, `-`, `_`). -/
def b64c (v : Nat) : Nat :=
  if v < 26 then 65 + v
  else if v < 52 then 97 + (v - 26)
  else if v < 62 then 48 + (v - 52)
  else if v = 62 then 45
  else 95

/-- Inverse alphabet map: ASCII byte to 6-bit value, `none` off-alphabet. -/
def b64v (c : Nat) : Option Nat :=
  if 65 ≤ c ∧ c ≤ 90 then some (c - 65)
  else if 97 ≤ c ∧ c ≤ 122 then some (c - 97 + 26)
  else if 48 ≤ c ∧ c ≤ 57 then some (c - 48 + 52)
  else if c = 45 then some 62
  else if c = 95 then some 63
  else none

/-- Base64url encoding without padding (`URL_SAFE_NO_PAD.encode`): bytes in,
ASCII bytes out; a final group of one byte yields two characters and of two
bytes three characters, with zero padding bits. -/
def b64encode : List Nat → List Nat
  | [] => []
  | [a] => [b64c (a / 4), b64c (a % 4 * 16)]
  | [a, b] => [b64c (a / 4), b64c (a % 4 * 16 + b / 16), b64c (b % 16 * 4)]
  | a :: b :: c :: rest =>
    b64c (a / 4) :: b64c (a % 4 * 16 + b / 16) :: b64c (b % 16 * 4 + c / 64) ::
      b64c (c % 64) :: b64encode rest

/-- Base64url decoding without padding (`URL_SAFE_NO_PAD.decode` with the
crate's default strict configuration): rejects off-alphabet characters, an
input length congruent to 1 mod 4, and non-zero trailing bits in the final
partial group. -/
def b64decode : List Nat → Option (List Nat)
  | [] => some []
  | [c1, c2] =>
    match b64v c1, b64v c2 with
    | some v1, some v2 =>
      if v2 % 16 = 0 then some [v1 * 4 + v2 / 16] else none
    | _, _ => none
  | [c1, c2, c3] =>
    match b64v c1, b64v c2, b64v c3 with
    | some v1, some v2, some v3 =>
      if v3 % 4 = 0 then some [v1 * 4 + v2 / 16, v2 % 16 * 16 + v3 / 4] else none
    | _, _, _ => none
  | c1 :: c2 :: c3 :: c4 :: rest =>
    match b64v c1, b64v c2, b64v c3, b64v c4 with
    | some v1, some v2, some v3, some v4 =>
      match b64decode rest with
      | some tail =>
        some ((v1 * 4 + v2 / 16) :: (v2 % 16 * 16 + v3 / 4) :: (v3 % 4 * 64 + v4) :: tail)
      | none => none
    | _, _, _, _ => none
  | _ => none

/-- The alphabet maps invert each other on 6-bit values. -/
theorem b64v_b64c : ∀ v, v < 64 → b64v (b64c v) = some v := by decide

/-- Alphabet characters are ASCII (below 128). -/
theorem b64c_lt_128 : ∀ v, v < 64 → b64c v < 128 := by decide

/-- Canonicity of the alphabet map: a byte accepted by `b64v` is in the
image of `b64c` at the decoded 6-bit value. -/
theorem b64v_canon (c v : Nat) (h : b64v c = some v) : v < 64 ∧ b64c v = c := by
  unfold b64v at h
  unfold b64c
  split at h
  · cases h
    constructor
    · omega
    · rw [if_pos (by omega)]
      omega
  split at h
  · cases h
    refine ⟨by omega, ?_⟩
    rw [if_neg (by omega), if_pos (by omega)]
    omega
  split at h
  · cases h
    refine ⟨by omega, ?_⟩
    rw [if_neg (by omega), if_neg (by omega), if_pos (by omega)]
    omega
  split at h
  · cases h
    refine ⟨by omega, ?_⟩
    rw [if_neg (by omega), if_neg (by omega), if_neg (by omega), if_pos (by omega)]
    omega
  split at h
  · cases h
    refine ⟨by omega, ?_⟩
    rw [if_neg (by omega), if_neg (by omega), if_neg (by omega), if_neg (by omega)]
    omega
  · cases h

/-- Round trip of the strict, unpadded base64url codec on byte lists. -/
theorem b64decode_b64encode :
    ∀ (fuel : Nat) (bs : List Nat), bs.length ≤ fuel → (∀ x ∈ bs, x < 256) →
      b64decode (b64encode bs) = some bs := by
  intro fuel
  induction fuel with
  | zero =>
    intro bs hl _
    have : bs = [] := by
      cases bs
      · rfl
      · simp at hl
    rw [this]
    rfl
  | succ n ih =>
    intro bs hl hb
    match bs with
    | [] => rfl
    | [a] =>
      have ha : a < 256 := hb a (by simp)
      rw [b64encode, b64decode,
        b64v_b64c (a / 4) (by omega), b64v_b64c (a % 4 * 16) (by omega)]
      simp only [Option.some.injEq]
      rw [if_pos (by omega)]
      simp only [Option.some.injEq, List.cons.injEq, and_true]
      omega
    | [a, b] =>
      have ha : a < 256 := hb a (by simp)
      have hbb : b < 256 := hb b (by simp)
      rw [b64encode, b64decode, b64v_b64c (a / 4) (by omega),
        b64v_b64c (a % 4 * 16 + b / 16) (by omega), b64v_b64c (b % 16 * 4) (by omega)]
      simp only
      rw [if_pos (by omega)]
      simp only [Option.some.injEq, List.cons.injEq, and_true]
      constructor
      · omega
      · omega
    | a :: b :: c :: rest =>
      have ha : a < 256 := hb a (by simp)
      have hbb : b < 256 := hb b (by simp)
      have hc : c < 256 := hb c (by simp)
      have hrest : b64decode (b64encode rest) = some rest := by
        apply ih rest (by simp at hl; omega)
        intro x hx
        exact hb x (by simp [hx])
      rw [b64encode, b64decode, b64v_b64c (a / 4) (by omega),
        b64v_b64c (a % 4 * 16 + b / 16) (by omega),
        b64v_b64c (b % 16 * 4 + c / 64) (by omega),
        b64v_b64c (c % 64) (by omega), hrest]
      simp only [Option.some.injEq, List.cons.injEq, and_true]
      refine ⟨by omega, by omega, by omega⟩

/-- Length of an unpadded base64url encoding as a function of the byte
count: four characters per full 3-byte group, two or three for a trailing
group of one or two bytes. -/
def encLen (n : Nat) : Nat :=
  n / 3 * 4 + (if n % 3 = 0 then 0 else n % 3 + 1)

/-- Adding a full 3-byte group adds four characters. -/
theorem encLen_add_three (m : Nat) : encLen (m + 3) = encLen m + 4 := by
  unfold encLen
  have h3 : (m + 3) % 3 = m % 3 := by omega
  have h4 : (m + 3) / 3 = m / 3 + 1 := by omega
  rw [h3, h4]
  by_cases h : m % 3 = 0 <;> simp [h] <;> omega

/-- The encoding's length is `encLen` of the byte count. -/
theorem b64encode_length :
    ∀ (fuel : Nat) (bs : List Nat), bs.length ≤ fuel →
      (b64encode bs).length = encLen bs.length := by
  intro fuel
  induction fuel with
  | zero =>
    intro bs hl
    have hbs : bs = [] := by
      cases bs
      · rfl
      · simp at hl
    subst hbs
    simp [b64encode, encLen]
  | succ n ih =>
    intro bs hl
    match bs with
    | [] => simp [b64encode, encLen]
    | [a] => simp [b64encode, encLen]
    | [a, b] => simp [b64encode, encLen]
    | a :: b :: c :: rest =>
      have ihr := ih rest (by simp at hl; omega)
      rw [b64encode]
      simp only [List.length_cons, ihr]
      have h3 : rest.length + 1 + 1 + 1 = rest.length + 3 := by omega
      rw [h3, encLen_add_three]

/-- The encoding length function is injective. -/
theorem encLen_injective (m n : Nat) (h : encLen m = encLen n) : m = n := by
  unfold encLen at h
  by_cases hm : m % 3 = 0 <;> by_cases hn : n % 3 = 0 <;> simp [hm, hn] at h <;> omega

/-- Canonicity of the strict unpadded base64url codec: an accepted input is
exactly the canonical encoding of the decoded bytes. -/
theorem b64encode_canon :
    ∀ (fuel : Nat) (s b : List Nat), s.length ≤ fuel →
      b64decode s = some b → b64encode b = s := by
  intro fuel
  induction fuel with
  | zero =>
    intro s b hl h
    have hs : s = [] := by
      cases s
      · rfl
      · simp at hl
    subst hs
    cases h
    rfl
  | succ n ih =>
    intro s b hl h
    match s with
    | [] =>
      cases h
      rfl
    | [c1] => cases h
    | [c1, c2] =>
      rw [b64decode] at h
      split at h
      · rename_i v1 v2 hv1 hv2
        split at h
        · rename_i hz
          cases h
          have h1 := b64v_canon c1 v1 hv1
          have h2 := b64v_canon c2 v2 hv2
          rw [b64encode]
          have e1 : (v1 * 4 + v2 / 16) / 4 = v1 := by omega
          have e2 : (v1 * 4 + v2 / 16) % 4 * 16 = v2 := by omega
          rw [e1, e2, h1.2, h2.2]
        · cases h
      · cases h
    | [c1, c2, c3] =>
      rw [b64decode] at h
      split at h
      · rename_i v1 v2 v3 hv1 hv2 hv3
        split at h
        · rename_i hz
          cases h
          have h1 := b64v_canon c1 v1 hv1
          have h2 := b64v_canon c2 v2 hv2
          have h3 := b64v_canon c3 v3 hv3
          rw [b64encode]
          have e1 : (v1 * 4 + v2 / 16) / 4 = v1 := by omega
          have e2 : (v1 * 4 + v2 / 16) % 4 * 16 + (v2 % 16 * 16 + v3 / 4) / 16 = v2 := by
            omega
          have e3 : (v2 % 16 * 16 + v3 / 4) % 16 * 4 = v3 := by omega
          rw [e1, e2, e3, h1.2, h2.2, h3.2]
        · cases h
      · cases h
    | c1 :: c2 :: c3 :: c4 :: rest =>
      rw [b64decode] at h
      split at h
      · rename_i v1 v2 v3 v4 hv1 hv2 hv3 hv4
        split at h
        · rename_i tail htail
          cases h
          have h1 := b64v_canon c1 v1 hv1
          have h2 := b64v_canon c2 v2 hv2
          have h3 := b64v_canon c3 v3 hv3
          have h4 := b64v_canon c4 v4 hv4
          have hrest := ih rest tail (by simp at hl; omega) htail
          rw [b64encode]
          have e1 : (v1 * 4 + v2 / 16) / 4 = v1 := by omega
          have e2 : (v1 * 4 + v2 / 16) % 4 * 16 + (v2 % 16 * 16 + v3 / 4) / 16 = v2 := by
            omega
          have e3 : (v2 % 16 * 16 + v3 / 4) % 16 * 4 + (v3 % 4 * 64 + v4) / 64 = v3 := by
            omega
          have e4 : (v3 % 4 * 64 + v4) % 64 = v4 := by omega
          rw [e1, e2, e3, e4, h1.2, h2.2, h3.2, h4.2, hrest]
        · cases h
      · cases h

/-- Two lists of equal length with equal `getD` views are equal. -/
theorem list_eq_of_getD :
    ∀ (l1 l2 : List Nat), l1.length = l2.length →
      (∀ p, l1.getD p 0 = l2.getD p 0) → l1 = l2 := by
  intro l1
  induction l1 with
  | nil =>
    intro l2 hl _
    cases l2
    · rfl
    · simp at hl
  | cons a l ih =>
    intro l2 hl hp
    cases l2 with
    | nil => simp at hl
    | cons b l' =>
      have h0 := hp 0
      simp only [List.getD_cons_zero] at h0
      subst h0
      have := ih l' (by simpa using hl) (fun p => by simpa using hp (p + 1))
      rw [this]

/-- Reading the written index of `List.set` (in bounds). -/
theorem getD_set_self :
    ∀ (l : List Nat) (i v : Nat), i < l.length → (l.set i v).getD i 0 = v := by
  intro l
  induction l with
  | nil => intro i v h; simp at h
  | cons a t ih =>
    intro i v h
    cases i with
    | zero => rfl
    | succ j =>
      simp only [List.set_cons_succ, List.getD_cons_succ]
      exact ih j v (by simpa using h)

/-- Reading another index of `List.set`. -/
theorem getD_set_ne :
    ∀ (l : List Nat) (i j v : Nat), j ≠ i → (l.set i v).getD j 0 = l.getD j 0 := by
  intro l
  induction l with
  | nil => intro i j v _; simp
  | cons a t ih =>
    intro i j v hne
    cases i with
    | zero =>
      cases j with
      | zero => exact absurd rfl hne
      | succ p => rfl
    | succ i' =>
      cases j with
      | zero => rfl
      | succ p =>
        simp only [List.set_cons_succ, List.getD_cons_succ]
        exact ih i' p v (by omega)

/-- The accepted-input length determines the decoded length via `encLen`. -/
theorem b64decode_length (s b : List Nat) (h : b64decode s = some b) :
    s.length = encLen b.length := by
  have hc := b64encode_canon s.length s b (Nat.le_refl _) h
  rw [← hc, b64encode_length b.length b (Nat.le_refl _)]

/-- Locality of base64 decoding: if two accepted inputs of the same length
differ at most at character index `i`, the decoded byte lists agree outside
the 3-byte group `[3*(i/4), 3*(i/4)+3)`. -/
theorem b64decode_local :
    ∀ (fuel : Nat) (s s' b b' : List Nat) (i : Nat),
      s.length ≤ fuel →
      b64decode s = some b → b64decode s' = some b' →
      s'.length = s.length →
      (∀ j, j ≠ i → s'.getD j 0 = s.getD j 0) →
      ∀ p, p < 3 * (i / 4) ∨ 3 * (i / 4) + 3 ≤ p → b'.getD p 0 = b.getD p 0 := by
  intro fuel
  induction fuel with
  | zero =>
    intro s s' b b' i hl h h' hlen _ p _
    have hs : s = [] := by
      cases s
      · rfl
      · simp at hl
    subst hs
    have hs' : s' = [] := by
      cases s'
      · rfl
      · simp at hlen
    subst hs'
    cases h
    cases h'
    rfl
  | succ n ih =>
    intro s s' b b' i hl h h' hlen hagree p hp
    match s with
    | [] =>
      have hs' : s' = [] := by
        cases s'
        · rfl
        · simp at hlen
      subst hs'
      cases h
      cases h'
      rfl
    | [c1] => cases h
    | [c1, c2] =>
      have hb : b.length = 1 := by
        have := b64decode_length [c1, c2] b h
        apply encLen_injective
        rw [← this]
        simp [encLen]
      have hb' : b'.length = 1 := by
        have := b64decode_length s' b' h'
        apply encLen_injective
        rw [← this, hlen]
        simp [encLen]
      by_cases hi : i < 4
      · rcases hp with hp | hp
        · omega
        · have h3p : 3 ≤ p := by omega
          rw [List.getD_eq_default _ _ (by omega), List.getD_eq_default _ _ (by omega)]
      · rcases s' with _ | ⟨d1, _ | ⟨d2, _ | ⟨d3, s''⟩⟩⟩ <;> simp at hlen
        have e1 : d1 = c1 := by
          have := hagree 0 (by omega)
          simpa using this
        have e2 : d2 = c2 := by
          have := hagree 1 (by omega)
          simpa using this
        subst e1
        subst e2
        rw [h] at h'
        cases h'
        rfl
    | [c1, c2, c3] =>
      have hb : b.length = 2 := by
        have := b64decode_length [c1, c2, c3] b h
        apply encLen_injective
        rw [← this]
        simp [encLen]
      have hb' : b'.length = 2 := by
        have := b64decode_length s' b' h'
        apply encLen_injective
        rw [← this, hlen]
        simp [encLen]
      by_cases hi : i < 4
      · rcases hp with hp | hp
        · omega
        · rw [List.getD_eq_default _ _ (by omega), List.getD_eq_default _ _ (by omega)]
      · rcases s' with _ | ⟨d1, _ | ⟨d2, _ | ⟨d3, _ | ⟨d4, s''⟩⟩⟩⟩ <;> simp at hlen
        have e1 : d1 = c1 := by simpa using hagree 0 (by omega)
        have e2 : d2 = c2 := by simpa using hagree 1 (by omega)
        have e3 : d3 = c3 := by simpa using hagree 2 (by omega)
        subst e1
        subst e2
        subst e3
        rw [h] at h'
        cases h'
        rfl
    | c1 :: c2 :: c3 :: c4 :: rest =>
      rcases s' with _ | ⟨d1, _ | ⟨d2, _ | ⟨d3, _ | ⟨d4, rest'⟩⟩⟩⟩ <;> simp at hlen
      rw [b64decode] at h
      split at h
      · rename_i v1 v2 v3 v4 hv1 hv2 hv3 hv4
        split at h
        · rename_i tail htail
          cases h
          rw [b64decode] at h'
          split at h'
          · rename_i w1 w2 w3 w4 hw1 hw2 hw3 hw4
            split at h'
            · rename_i tail' htail'
              cases h'
              by_cases hi : i < 4
              · -- the changed character is in the first group: the rests agree
                have hrest : rest' = rest := by
                  apply list_eq_of_getD _ _ (by omega)
                  intro q
                  have := hagree (q + 4) (by omega)
                  simpa using this
                subst hrest
                rw [htail] at htail'
                cases htail'
                rcases hp with hp | hp
                · omega
                · obtain ⟨q, rfl⟩ : ∃ q, p = q + 3 := ⟨p - 3, by omega⟩
                  simp
              · -- the changed character is past the first group
                have e1 : d1 = c1 := by simpa using hagree 0 (by omega)
                have e2 : d2 = c2 := by simpa using hagree 1 (by omega)
                have e3 : d3 = c3 := by simpa using hagree 2 (by omega)
                have e4 : d4 = c4 := by simpa using hagree 3 (by omega)
                subst e1
                subst e2
                subst e3
                subst e4
                have f1 : w1 = v1 := by
                  have := hv1.symm.trans hw1
                  exact (Option.some.inj this).symm
                have f2 : w2 = v2 := by
                  have := hv2.symm.trans hw2
                  exact (Option.some.inj this).symm
                have f3 : w3 = v3 := by
                  have := hv3.symm.trans hw3
                  exact (Option.some.inj this).symm
                have f4 : w4 = v4 := by
                  have := hv4.symm.trans hw4
                  exact (Option.some.inj this).symm
                subst f1
                subst f2
                subst f3
                subst f4
                have htl := ih rest rest' tail tail' (i - 4) (by simp at hl; omega)
                  htail htail' (by omega)
                  (fun j hj => by
                    have := hagree (j + 4) (by omega)
                    simpa using this)
                rcases Nat.lt_or_ge p 3 with h3 | h3
                · interval_cases p <;> rfl
                · obtain ⟨q, rfl⟩ : ∃ q, p = q + 3 := ⟨p - 3, by omega⟩
                  have hq : q < 3 * ((i - 4) / 4) ∨ 3 * ((i - 4) / 4) + 3 ≤ q := by
                    have : (i - 4) / 4 = i / 4 - 1 := by omega
                    omega
                  simpa using htl q hq
            · cases h'
          · cases h'
        · cases h
      · cases h

/-- Continuation-byte range check for UTF-8 validation. -/
def utf8Cont (b : Nat) : Bool := 128 ≤ b && b ≤ 191

/-- UTF-8 validity of a byte list, as `String::from_utf8` checks it
(RFC 3629 well-formed ranges, surrogates and overlong forms excluded). -/
def isValidUtf8 : List Nat → Bool
  | [] => true
  | b :: rest =>
    if b < 128 then isValidUtf8 rest
    else if 194 ≤ b && b ≤ 223 then
      match rest with
      | b2 :: r2 => utf8Cont b2 && isValidUtf8 r2
      | [] => false
    else if b == 224 then
      match rest with
      | b2 :: b3 :: r3 => (160 ≤ b2 && b2 ≤ 191) && utf8Cont b3 && isValidUtf8 r3
      | _ => false
    else if (225 ≤ b && b ≤ 236) || b == 238 || b == 239 then
      match rest with
      | b2 :: b3 :: r3 => utf8Cont b2 && utf8Cont b3 && isValidUtf8 r3
      | _ => false
    else if b == 237 then
      match rest with
      | b2 :: b3 :: r3 => (128 ≤ b2 && b2 ≤ 159) && utf8Cont b3 && isValidUtf8 r3
      | _ => false
    else if b == 240 then
      match rest with
      | b2 :: b3 :: b4 :: r4 =>
        (144 ≤ b2 && b2 ≤ 191) && utf8Cont b3 && utf8Cont b4 && isValidUtf8 r4
      | _ => false
    else if 241 ≤ b && b ≤ 243 then
      match rest with
      | b2 :: b3 :: b4 :: r4 =>
        utf8Cont b2 && utf8Cont b3 && utf8Cont b4 && isValidUtf8 r4
      | _ => false
    else if b == 244 then
      match rest with
      | b2 :: b3 :: b4 :: r4 =>
        (128 ≤ b2 && b2 ≤ 143) && utf8Cont b3 && utf8Cont b4 && isValidUtf8 r4
      | _ => false
    else false

/-- Modelled from the spec: the AES-256-GCM primitive behind `encrypt_state`
and `decrypt_state` lives in the external `aes_gcm` crate, not in this
repository. It is modelled as an ideal authenticated cipher in the symbolic
(Dolev-Yao) style: the ciphertext binds the key, the nonce and the message
(here by containing each, with the message duplicated), and decryption
succeeds exactly on genuine ciphertexts. This realizes functional
correctness plus ciphertext integrity, the idealization of the AEAD
contract in section 4.1 of the specification. -/
def idealEnc (key nonce msg : List Nat) : List Nat :=
  msg ++ key ++ nonce ++ msg

/-- Decryption for the ideal cipher: recover the candidate message from the
blob length, then accept only the exact genuine ciphertext. -/
def idealDec (key nonce c : List Nat) : Option (List Nat) :=
  if 44 ≤ c.length ∧ (c.length - 44) % 2 = 0 ∧
      c = idealEnc key nonce (c.take ((c.length - 44) / 2)) then
    some (c.take ((c.length - 44) / 2))
  else none

/-- The ideal cipher round-trips under a 32-byte key and 12-byte nonce. -/
theorem idealDec_idealEnc (key nonce msg : List Nat)
    (hk : key.length = 32) (hn : nonce.length = 12) :
    idealDec key nonce (idealEnc key nonce msg) = some msg := by
  have hlen : (idealEnc key nonce msg).length = 2 * msg.length + 44 := by
    simp [idealEnc, hk, hn]
    omega
  have htake : (idealEnc key nonce msg).take
      (((idealEnc key nonce msg).length - 44) / 2) = msg := by
    rw [hlen]
    have : (2 * msg.length + 44 - 44) / 2 = msg.length := by omega
    rw [this]
    unfold idealEnc
    rw [List.append_assoc, List.append_assoc, List.take_append_of_le_length (Nat.le_refl _),
      List.take_length]
  rw [idealDec, if_pos]
  · rw [htake]
  · refine ⟨by omega, by omega, ?_⟩
    rw [htake]

/-- Embedding of `OAuthService::encrypt_state` (`src/services/oauth.rs`
lines 245-269): AEAD-encrypt the challenge bytes under a fresh nonce, then
base64url-encode `nonce ++ ciphertext` without padding. The challenge id is
carried as its UTF-8 bytes (a Rust `String` is exactly its UTF-8 bytes). -/
def encryptState (key nonce msg : List Nat) : List Nat :=
  b64encode (nonce ++ idealEnc key nonce msg)

/-- Embedding of `OAuthService::decrypt_state` (`src/services/oauth.rs`
lines 272-303): base64url-decode, reject blobs shorter than the 12-byte
nonce, AEAD-decrypt, check UTF-8; every failure is the single
`AppError::OAuthStateInvalid`. (`Aes256Gcm::new_from_slice` on the stored
32-byte key cannot fail, so the cipher-initialization branch is dead.) -/
def decryptState (key : List Nat) (stateStr : List Nat) :
    Except AppErr (List Nat) :=
  match b64decode stateStr with
  | none => .error .oauthStateInvalid
  | some encrypted =>
    if encrypted.length < 12 then .error .oauthStateInvalid
    else
      match idealDec key (encrypted.take 12) (encrypted.drop 12) with
      | none => .error .oauthStateInvalid
      | some plaintext =>
        if isValidUtf8 plaintext then .ok plaintext
        else .error .oauthStateInvalid

/-- C7: every decode failure of the state parameter — malformed base64url, a
decoded blob shorter than the 12-byte nonce, AEAD authentication failure, or
non-UTF-8 plaintext — produces the single `OAuthStateInvalid` outcome: for
every input, `decrypt_state` either succeeds or fails with exactly that
error, so the caller never learns which check failed. -/
theorem decryptState_single_error (key stateStr : List Nat) :
    (∃ m, decryptState key stateStr = .ok m) ∨
      decryptState key stateStr = .error .oauthStateInvalid := by
  unfold decryptState
  rcases b64decode stateStr with _ | encrypted
  · right
    rfl
  · simp only
    split
    · right
      rfl
    · rcases idealDec key (encrypted.take 12) (encrypted.drop 12) with _ | plaintext
      · right
        rfl
      · simp only
        split
        · left
          exact ⟨plaintext, rfl⟩
        · right
          rfl

/-- Reading past the first summand of an append at an explicit offset. -/
theorem getD_append_offset (l1 l2 : List Nat) (p : Nat) :
    (l1 ++ l2).getD (l1.length + p) 0 = l2.getD p 0 := by
  rw [List.getD_append_right _ _ _ _ (by omega)]
  congr 1
  omega

/-- Positional reads of a five-segment blob `n1 ++ m1 ++ k ++ n1 ++ m1` (the
shape of `nonce ++ idealEnc key nonce msg`): the two copies of `n1` sit 44 +
L positions apart, as do the two copies of `m1`. -/
theorem getD_blob5 (n1 m1 k : List Nat) (L : Nat)
    (hn1 : n1.length = 12) (hm1 : m1.length = L) (hkk : k.length = 32) :
    (∀ p, p < 12 → (n1 ++ (m1 ++ (k ++ (n1 ++ m1)))).getD p 0 = n1.getD p 0) ∧
    (∀ p, p < L → (n1 ++ (m1 ++ (k ++ (n1 ++ m1)))).getD (12 + p) 0 = m1.getD p 0) ∧
    (∀ p, p < 12 →
      (n1 ++ (m1 ++ (k ++ (n1 ++ m1)))).getD (44 + L + p) 0 = n1.getD p 0) ∧
    (∀ p, p < L →
      (n1 ++ (m1 ++ (k ++ (n1 ++ m1)))).getD (56 + L + p) 0 = m1.getD p 0) := by
  refine ⟨?_, ?_, ?_, ?_⟩
  · intro p hp
    rw [List.getD_append _ _ _ _ (by omega)]
  · intro p hp
    have e : 12 + p = n1.length + p := by omega
    rw [e, getD_append_offset, List.getD_append _ _ _ _ (by omega)]
  · intro p hp
    have e : 44 + L + p = n1.length + (m1.length + (k.length + p)) := by omega
    rw [e, getD_append_offset, getD_append_offset, getD_append_offset,
      List.getD_append _ _ _ _ (by omega)]
  · intro p hp
    have e : 56 + L + p = n1.length + (m1.length + (k.length + (n1.length + p))) := by
      omega
    rw [e, getD_append_offset, getD_append_offset, getD_append_offset,
      getD_append_offset]

/-- Flipping one bit always changes a natural number. -/
theorem xor_two_pow_ne (x j : Nat) : x ^^^ 2 ^ j ≠ x := by
  intro h
  have h2 : x ^^^ (x ^^^ 2 ^ j) = x ^^^ x := by rw [h]
  rw [← Nat.xor_assoc, Nat.xor_self, Nat.zero_xor] at h2
  have hp : 0 < 2 ^ j := Nat.pos_pow_of_pos j (by omega)
  omega

/-- One-bit flip of an encoded state string: XOR bit `j` into the byte at
index `i`. -/
def flipBitAt (s : List Nat) (i j : Nat) : List Nat :=
  s.set i (s.getD i 0 ^^^ 2 ^ j)

/-- Tampering defeats the ideal cipher: a blob of the genuine length that
differs from the genuine `nonce ++ idealEnc key nonce msg` only inside one
window of three consecutive bytes fails `idealDec`. The two copies each of
the nonce and the message lie at least 44 positions apart, so a three-byte
window cannot alter both copies consistently. -/
theorem idealDec_tamper (key nonce msg blob' : List Nat)
    (hk : key.length = 32) (hn : nonce.length = 12)
    (hlen : blob'.length = (nonce ++ idealEnc key nonce msg).length)
    (hne : blob' ≠ nonce ++ idealEnc key nonce msg)
    (q : Nat)
    (hwin : ∀ p, p < q ∨ q + 3 ≤ p →
      blob'.getD p 0 = (nonce ++ idealEnc key nonce msg).getD p 0) :
    idealDec key (blob'.take 12) (blob'.drop 12) = none := by
  have hblen : (nonce ++ idealEnc key nonce msg).length = 2 * msg.length + 56 := by
    simp [idealEnc, hn, hk]
    omega
  have hlb : blob'.length = 2 * msg.length + 56 := by rw [hlen, hblen]
  rw [idealDec]
  split
  · rename_i hcond
    exfalso
    obtain ⟨h44, hpar, heq⟩ := hcond
    obtain ⟨n', hn'd⟩ : ∃ x : List Nat, List.take 12 blob' = x := ⟨_, rfl⟩
    obtain ⟨c', hc'd⟩ : ∃ x : List Nat, List.drop 12 blob' = x := ⟨_, rfl⟩
    rw [hn'd] at heq
    rw [hc'd] at heq h44 hpar
    obtain ⟨m', hm'd⟩ : ∃ x : List Nat, c'.take ((c'.length - 44) / 2) = x := ⟨_, rfl⟩
    rw [hm'd] at heq
    have hlc : c'.length = 2 * msg.length + 44 := by
      rw [← hc'd, List.length_drop]
      omega
    have hln' : n'.length = 12 := by
      rw [← hn'd, List.length_take]
      omega
    have hlm : m'.length = msg.length := by
      rw [← hm'd, List.length_take]
      omega
    have hsplit : blob' = n' ++ c' := by
      rw [← hn'd, ← hc'd]
      exact (List.take_append_drop 12 blob').symm
    have hblob' : blob' = n' ++ (m' ++ (key ++ (n' ++ m'))) := by
      conv_lhs => rw [hsplit]
      rw [heq, idealEnc]
      simp only [List.append_assoc]
    have hshape : nonce ++ idealEnc key nonce msg =
        nonce ++ (msg ++ (key ++ (nonce ++ msg))) := by
      rw [idealEnc]
      simp only [List.append_assoc]
    have hB' := getD_blob5 n' m' key msg.length hln' hlm hk
    have hB := getD_blob5 nonce msg key msg.length hn rfl hk
    have hnagree : ∀ p, p < 12 → n'.getD p 0 = nonce.getD p 0 := by
      intro p hp
      by_cases hpq : p < q ∨ q + 3 ≤ p
      · have h1 := hwin p hpq
        rw [hshape, hblob'] at h1
        rw [hB'.1 p hp, hB.1 p hp] at h1
        exact h1
      · have hpq2 : 44 + msg.length + p < q ∨ q + 3 ≤ 44 + msg.length + p := by
          omega
        have h1 := hwin (44 + msg.length + p) hpq2
        rw [hshape, hblob'] at h1
        rw [hB'.2.2.1 p hp, hB.2.2.1 p hp] at h1
        exact h1
    have hmagree : ∀ p, p < msg.length → m'.getD p 0 = msg.getD p 0 := by
      intro p hp
      by_cases hpq : 12 + p < q ∨ q + 3 ≤ 12 + p
      · have h1 := hwin (12 + p) hpq
        rw [hshape, hblob'] at h1
        rw [hB'.2.1 p hp, hB.2.1 p hp] at h1
        exact h1
      · have hpq2 : 56 + msg.length + p < q ∨ q + 3 ≤ 56 + msg.length + p := by
          omega
        have h1 := hwin (56 + msg.length + p) hpq2
        rw [hshape, hblob'] at h1
        rw [hB'.2.2.2 p hp, hB.2.2.2 p hp] at h1
        exact h1
    have hneq : n' = nonce := by
      apply list_eq_of_getD _ _ (by omega)
      intro p
      by_cases hp : p < 12
      · exact hnagree p hp
      · rw [List.getD_eq_default _ _ (by omega), List.getD_eq_default _ _ (by omega)]
    have hmeq : m' = msg := by
      apply list_eq_of_getD _ _ (by omega)
      intro p
      by_cases hp : p < msg.length
      · exact hmagree p hp
      · rw [List.getD_eq_default _ _ (by omega), List.getD_eq_default _ _ (by omega)]
    apply hne
    rw [hblob', hneq, hmeq, hshape]
  · rfl

/-- Unfolding of `decryptState` when base64 decoding fails. -/
theorem decryptState_b64_none (key s : List Nat) (h : b64decode s = none) :
    decryptState key s = .error .oauthStateInvalid := by
  rw [decryptState, h]

/-- Unfolding of `decryptState` when base64 decoding succeeds. -/
theorem decryptState_b64_some (key s enc : List Nat) (h : b64decode s = some enc) :
    decryptState key s =
      (if enc.length < 12 then .error .oauthStateInvalid
       else
        match idealDec key (enc.take 12) (enc.drop 12) with
        | none => .error .oauthStateInvalid
        | some plaintext =>
          if isValidUtf8 plaintext then .ok plaintext
          else .error .oauthStateInvalid) := by
  rw [decryptState, h]

/-- C2: with a 32-byte key and a fresh 12-byte nonce, `decrypt_state`
recovers exactly the challenge id from `encrypt_state` for every non-empty
challenge (round-trip law); and flipping any single bit of the encoded state
string makes `decrypt_state` fail with `InvalidOrTamperedState`
(`AppError::OAuthStateInvalid`). The AEAD primitive is the ideal cipher
`idealEnc`/`idealDec` (see its doc comment); the base64url codec and every
check of `decrypt_state` are the source's own. -/
theorem encryptState_roundtrip_and_tamper
    (key nonce msg : List Nat)
    (hk : key.length = 32) (hn : nonce.length = 12)
    (_hm : msg ≠ []) (hvalid : isValidUtf8 msg = true)
    (hk256 : ∀ x ∈ key, x < 256) (hn256 : ∀ x ∈ nonce, x < 256)
    (hm256 : ∀ x ∈ msg, x < 256) :
    decryptState key (encryptState key nonce msg) = .ok msg ∧
    ∀ i j, i < (encryptState key nonce msg).length → j < 8 →
      decryptState key (flipBitAt (encryptState key nonce msg) i j) =
        .error .oauthStateInvalid := by
  have hblob256 : ∀ x ∈ nonce ++ idealEnc key nonce msg, x < 256 := by
    intro x hx
    rw [idealEnc] at hx
    simp only [List.mem_append] at hx
    rcases hx with hx | ⟨⟨hx | hx⟩ | hx⟩ | hx
    · exact hn256 x hx
    · exact hm256 x hx
    · exact hk256 x hx
    · exact hn256 x hx
    · exact hm256 x hx
  have hblen : (nonce ++ idealEnc key nonce msg).length = 2 * msg.length + 56 := by
    simp [idealEnc, hn, hk]
    omega
  have hdec : b64decode (b64encode (nonce ++ idealEnc key nonce msg)) =
      some (nonce ++ idealEnc key nonce msg) :=
    b64decode_b64encode _ _ (Nat.le_refl _) hblob256
  have htake : (nonce ++ idealEnc key nonce msg).take 12 = nonce := by
    conv_lhs => rw [show (12 : Nat) = nonce.length from hn.symm]
    exact List.take_left nonce _
  have hdrop : (nonce ++ idealEnc key nonce msg).drop 12 = idealEnc key nonce msg := by
    conv_lhs => rw [show (12 : Nat) = nonce.length from hn.symm]
    exact List.drop_left nonce _
  constructor
  · rw [encryptState, decryptState_b64_some key _ _ hdec]
    rw [if_neg (by omega)]
    rw [htake, hdrop, idealDec_idealEnc key nonce msg hk hn]
    simp [hvalid]
  · intro i j hi hj
    rw [encryptState] at hi
    have hset_len : (flipBitAt (b64encode (nonce ++ idealEnc key nonce msg)) i j).length =
        (b64encode (nonce ++ idealEnc key nonce msg)).length := by
      rw [flipBitAt, List.length_set]
    have hsne : flipBitAt (b64encode (nonce ++ idealEnc key nonce msg)) i j ≠
        b64encode (nonce ++ idealEnc key nonce msg) := by
      intro hcontra
      have h1 : (flipBitAt (b64encode (nonce ++ idealEnc key nonce msg)) i j).getD i 0 =
          (b64encode (nonce ++ idealEnc key nonce msg)).getD i 0 := by rw [hcontra]
      rw [flipBitAt, getD_set_self _ _ _ hi] at h1
      exact xor_two_pow_ne _ j h1
    rw [encryptState]
    rcases hdec' : b64decode (flipBitAt (b64encode (nonce ++ idealEnc key nonce msg)) i j)
      with _ | b'
    · exact decryptState_b64_none _ _ hdec'
    · have hcanon := b64encode_canon
        (flipBitAt (b64encode (nonce ++ idealEnc key nonce msg)) i j).length _ b'
        (Nat.le_refl _) hdec'
      have hbne : b' ≠ nonce ++ idealEnc key nonce msg := by
        intro hcontra
        apply hsne
        rw [← hcanon, hcontra]
      have hblen' : b'.length = (nonce ++ idealEnc key nonce msg).length := by
        apply encLen_injective
        have e1 := b64decode_length _ _ hdec'
        have e2 := b64decode_length _ _ hdec
        rw [← e1, ← e2, hset_len]
      have hlocal := b64decode_local
        (b64encode (nonce ++ idealEnc key nonce msg)).length
        (b64encode (nonce ++ idealEnc key nonce msg))
        (flipBitAt (b64encode (nonce ++ idealEnc key nonce msg)) i j)
        (nonce ++ idealEnc key nonce msg) b' i
        (Nat.le_refl _) hdec hdec' hset_len
        (fun jj hjj => by rw [flipBitAt]; exact getD_set_ne _ _ _ _ hjj)
      have htamper := idealDec_tamper key nonce msg b' hk hn hblen' hbne
        (3 * (i / 4)) (fun p hp => hlocal p hp)
      rw [decryptState_b64_some _ _ _ hdec']
      rw [if_neg (by rw [hblen'] ; omega), htamper]

/-- Witness for C2 at a concrete 32-byte key, 12-byte nonce and the
two-byte challenge id "hi"; the flipped-bit branch is also evaluated at the
first bit of the first character. -/
theorem encryptState_roundtrip_and_tamper_witness :
    (decryptState (List.replicate 32 7)
        (encryptState (List.replicate 32 7) (List.replicate 12 3) [104, 105]) =
      .ok [104, 105] ∧
    ∀ i j, i < (encryptState (List.replicate 32 7) (List.replicate 12 3)
        [104, 105]).length → j < 8 →
      decryptState (List.replicate 32 7)
          (flipBitAt (encryptState (List.replicate 32 7) (List.replicate 12 3)
            [104, 105]) i j) =
        .error .oauthStateInvalid) ∧
    decryptState (List.replicate 32 7)
        (flipBitAt (encryptState (List.replicate 32 7) (List.replicate 12 3)
          [104, 105]) 0 0) =
      .error .oauthStateInvalid := by
  have h := encryptState_roundtrip_and_tamper (List.replicate 32 7)
    (List.replicate 12 3) [104, 105] (by decide) (by decide) (by decide)
    (by decide) (by decide) (by decide) (by decide)
  exact ⟨h, h.2 0 0 (by decide) (by decide)⟩

end Oxgate
